import Mathlib

/-
  Shallow embedding of the STLVault model-viewing pipeline.

  Sources embedded:
  * src/components/Viewer3D.tsx — the Model component (load / normalize /
    report layout effect, lines 14-37), the Viewer3D component (url / error
    state and rendering branches, lines 39-103) and the ErrorBoundary class
    (lines 106-125).
  * src/unnamed/part_000 (the App component) — handleUpload, the per-file
    upload loop with client-side thumbnail generation (lines 111-143).

  The binary mesh decoding (STLLoader) and the geometry operations invoked at
  Viewer3D.tsx lines 20-26 (computeVertexNormals / center / computeBoundingBox
  on THREE.BufferGeometry) are library code whose implementation is not under
  src/; where a claim depends on their internals they are modelled from the
  spec, as marked on each such definition.  Numbers are exact rationals
  (positions) and reals (normals), standing for the floats of the code, so
  "within floating-point tolerance" becomes exact equality.
-/

/-! ### Viewer3D component state (src/components/Viewer3D.tsx, lines 39-103)

The component holds `url` (a prop) and `error` (React `useState`, line 40).
`onError={() => setError(true)}` (line 77) sets the error flag.  When the
`url` prop changes the component re-renders with the new prop value but its
`useState` state is preserved: nothing in Viewer3D resets `error` on a url
change and no `key` forces a remount, which is exactly what `viewerStep`
encodes. -/

structure ViewerState where
  url : String
  error : Bool
deriving DecidableEq

inductive ViewerEvent
  | errorCaught
  | setUrl (u : String)

inductive ViewOutput
  | noModel
  | errorView
  | canvas (url : String)
deriving DecidableEq

def viewerStep (s : ViewerState) : ViewerEvent → ViewerState
  | .errorCaught => ⟨s.url, true⟩
  | .setUrl u => ⟨u, s.error⟩

/-- Rendering branches of Viewer3D (lines 65-66, 68-85): empty url shows the
"No model selected" placeholder, the error flag shows the error placeholder,
otherwise the Canvas with the Model subtree for the current url is mounted. -/
def viewerRender (s : ViewerState) : ViewOutput :=
  if s.url = "" then .noModel
  else if s.error then .errorView
  else .canvas s.url

/-- Only the canvas branch mounts the Model subtree (lines 73-85); mounting the
Model is what starts the fetch/decode and is the only place `onLoaded` or
`onError` can ever be invoked from. -/
def mountsModel (s : ViewerState) : Bool :=
  match viewerRender s with
  | .canvas _ => true
  | _ => false

def setUrls (s : ViewerState) (us : List String) : ViewerState :=
  us.foldl (fun t u => viewerStep t (.setUrl u)) s

/-! ### ErrorBoundary (src/components/Viewer3D.tsx, lines 106-125)

State `hasError` starts false; `getDerivedStateFromError` sets it on a child
exception and `componentDidCatch` invokes `this.props.onError()` (line 118).
When `hasError` is set, `render` returns `null` (line 122), so the faulty
child is not rendered again and cannot throw again.  A frame is one render
attempt of the boundary; `childFaults` says whether rendering the child
subtree would throw on that frame. -/

structure EBState where
  hasError : Bool
  onErrorCalls : Nat
deriving DecidableEq

def ebStep (s : EBState) (childFaults : Bool) : EBState :=
  if s.hasError then s
  else if childFaults then ⟨true, s.onErrorCalls + 1⟩
  else s

def ebRun (s : EBState) (faults : List Bool) : EBState :=
  faults.foldl ebStep s

/-! ### Model layout effect (src/components/Viewer3D.tsx, lines 18-30)

`useLayoutEffect(..., [geometry, onLoaded])`: React runs the effect body on
the first render and on every re-render whose dependency array differs from
the previous render's (reference comparison).  `geom` and `cb` are the
identities of the loaded geometry object and of the `onLoaded` function prop.
The effect body invokes `onLoaded` (lines 24-27). -/

structure RenderPass where
  geom : Nat
  cb : Nat
deriving DecidableEq

def onLoadedCalls : Option (Nat × Nat) → List RenderPass → Nat
  | _, [] => 0
  | prev, p :: rest =>
      (if prev = some (p.geom, p.cb) then 0 else 1) +
        onLoadedCalls (some (p.geom, p.cb)) rest

/-- Total number of `onLoaded` invocations over a sequence of renders of the
mounted Model component (first render has no previous dependency array). -/
def onLoadedCount (ps : List RenderPass) : Nat := onLoadedCalls none ps

/-! ### Upload flow (src/unnamed/part_000, handleUpload, lines 111-143)

For each file: if it is an .stl, thumbnail generation is attempted inside its
own try/catch — a failure is caught (line 125-127) and the upload proceeds
with `thumbnail = undefined`; the upload itself is inside the outer try/catch
(failure logged, loop continues); `finally` decrements the upload queue
counter for every file.  `thumbOk` / `uploadOk` are the environment outcomes
of the two awaited calls. -/

structure FileEnv where
  name : String
  isStl : Bool
  thumbOk : Bool
  uploadOk : Bool
deriving DecidableEq

structure UploadEntry where
  name : String
  thumb : Option String
deriving DecidableEq

structure UploadState where
  models : List UploadEntry
  queue : Int
deriving DecidableEq

def uploadStep (st : UploadState) (f : FileEnv) : UploadState :=
  let thumb : Option String := if f.isStl && f.thumbOk then some f.name else none
  let models := if f.uploadOk then ⟨f.name, thumb⟩ :: st.models else st.models
  ⟨models, st.queue - 1⟩

def runFiles (st : UploadState) (files : List FileEnv) : UploadState :=
  files.foldl uploadStep st

/-- handleUpload: the queue counter is raised by the batch size up front
(line 113) and every file is processed in order. -/
def handleUpload (ms : List UploadEntry) (q : Int) (files : List FileEnv) : UploadState :=
  runFiles ⟨ms, q + files.length⟩ files

/-! ### Mesh decoding

The decode is performed by STLLoader (three/examples), imported at
Viewer3D.tsx line 4 and invoked via `useLoader(STLLoader, url)` at line 16;
its implementation is not under src/. -/

inductive MeshError
  | malformedMesh
  | emptyMesh
deriving DecidableEq

def u32le (b0 b1 b2 b3 : Nat) : Nat := b0 + 256 * b1 + 65536 * b2 + 16777216 * b3

def u32bytes (n : Nat) : List Nat :=
  [n % 256, n / 256 % 256, n / 65536 % 256, n / 16777216 % 256]

def readRecords : Nat → List Nat → List (List Nat)
  | 0, _ => []
  | n + 1, l => l.take 50 :: readRecords n (l.drop 50)

def concatL : List (List Nat) → List Nat
  | [] => []
  | r :: rs => r ++ concatL rs

def decodeBody : List Nat → Except MeshError (List (List Nat))
  | b0 :: b1 :: b2 :: b3 :: rest =>
      if u32le b0 b1 b2 b3 = 0 then .error .malformedMesh
      else if rest.length = 50 * u32le b0 b1 b2 b3 then
        .ok (readRecords (u32le b0 b1 b2 b3) rest)
      else .error .malformedMesh
  | _ => .error .malformedMesh

/-- Modelled from the spec: the binary triangle-mesh decode performed by
STLLoader, whose implementation is not under src/.  Per spec §4.1 and §8: a
fixed 80-byte header, a little-endian 32-bit triangle count, then fixed-size
50-byte per-triangle records (normal + three vertices + padding); any short
read, truncated record, structurally invalid count, or a zero triangle count
fails with `MalformedMeshError` and returns no partial data.  A triangle is
kept as its raw 50-byte record (field values uninterpreted), which is all the
count/order claims need.  Bytes are `Nat`s below 256. -/
def decode (buf : List Nat) : Except MeshError (List (List Nat)) :=
  decodeBody (buf.drop 80)

/-! ### Geometry: positions, bounding box, centering

Exact-rational model of the vertex-position processing run by the Model layout
effect (Viewer3D.tsx lines 18-30): `geometry.center()` then
`geometry.computeBoundingBox()` then `boundingBox.getSize(size)` then
`onLoaded({x, y, z})`. -/

structure V3 (α : Type) where
  x : α
  y : α
  z : α
deriving DecidableEq

def vadd {α : Type} [Add α] (u v : V3 α) : V3 α := ⟨u.x + v.x, u.y + v.y, u.z + v.z⟩

def vsub {α : Type} [Sub α] (u v : V3 α) : V3 α := ⟨u.x - v.x, u.y - v.y, u.z - v.z⟩

def vsmul {α : Type} [Mul α] (a : α) (v : V3 α) : V3 α := ⟨a * v.x, a * v.y, a * v.z⟩

def vzero {α : Type} [Zero α] : V3 α := ⟨0, 0, 0⟩

def vmin (u v : V3 ℚ) : V3 ℚ := ⟨min u.x v.x, min u.y v.y, min u.z v.z⟩

def vmax (u v : V3 ℚ) : V3 ℚ := ⟨max u.x v.x, max u.y v.y, max u.z v.z⟩

/-- Componentwise minimum corner of the axis-aligned bounding box of a vertex
list (`vzero` for the empty list, matching the 0-size empty Box3). -/
def bboxMin : List (V3 ℚ) → V3 ℚ
  | [] => vzero
  | v :: rest => rest.foldl vmin v

def bboxMax : List (V3 ℚ) → V3 ℚ
  | [] => vzero
  | v :: rest => rest.foldl vmax v

/-- Center of the bounding box, (min + max) / 2 componentwise. -/
def bboxCenter (vs : List (V3 ℚ)) : V3 ℚ :=
  vsmul (1 / 2 : ℚ) (vadd (bboxMin vs) (bboxMax vs))

/-- Modelled from the spec: `geometry.center()` (THREE.BufferGeometry, library
code not under src/, invoked at Viewer3D.tsx line 21) — compute the bounding
box of all vertex positions, then translate every vertex by the negative of
the box's center (spec §4.2). -/
def centerGeom (vs : List (V3 ℚ)) : List (V3 ℚ) :=
  vs.map (fun v => vsub v (bboxCenter vs))

/-- Bounding size, max − min componentwise (spec §3 BoundingSize; Box3.getSize
yields (0,0,0) for the empty box). -/
def bboxSize (vs : List (V3 ℚ)) : V3 ℚ := vsub (bboxMax vs) (bboxMin vs)

structure Tri where
  a : V3 ℚ
  b : V3 ℚ
  c : V3 ℚ
deriving DecidableEq

def vertsOf : List Tri → List (V3 ℚ)
  | [] => []
  | t :: rest => t.a :: t.b :: t.c :: vertsOf rest

structure NormGeom where
  verts : List (V3 ℚ)
  size : V3 ℚ
deriving DecidableEq

/-- Modelled from the spec: the normalizer (spec §4.2) over decoded triangles;
its geometry operations live in THREE.BufferGeometry, not under src/.  Zero
triangles fail with `EmptyMeshError`; otherwise the vertices are centered
first and the bounding size is computed from the centered geometry afterwards,
in the statement order of Viewer3D.tsx lines 21-26. -/
def normalizeMesh (ts : List Tri) : Except MeshError NormGeom :=
  match ts with
  | [] => .error .emptyMesh
  | _ :: _ => .ok ⟨centerGeom (vertsOf ts), bboxSize (centerGeom (vertsOf ts))⟩

/-- Geometry handed to the mesh for rendering: only a successful normalize
yields one (the error branch renders the placeholder instead). -/
def renderedGeom (ts : List Tri) : Option (List (V3 ℚ)) :=
  match normalizeMesh ts with
  | .ok g => some g.verts
  | .error _ => none

/-- The size reported to the caller through `onLoaded` (Viewer3D.tsx line 27),
after centering and bounding-box computation. -/
def reportedSize (ts : List Tri) : Option (V3 ℚ) :=
  match normalizeMesh ts with
  | .ok g => some g.size
  | .error _ => none

/-- Spec §8 scenario triangle: vertices (0,0,0), (1,0,0), (0,1,0). -/
def T0 : Tri := ⟨⟨0, 0, 0⟩, ⟨1, 0, 0⟩, ⟨0, 1, 0⟩⟩

/-- Normalization result for `[T0]`: centered vertices and bounding size (1,1,0). -/
def G0 : NormGeom :=
  ⟨[⟨-(1 / 2), -(1 / 2), 0⟩, ⟨1 / 2, -(1 / 2), 0⟩, ⟨-(1 / 2), 1 / 2, 0⟩], ⟨1, 1, 0⟩⟩

/-! ### Vertex shading normals

Normal computation is performed by `geometry.computeVertexNormals()`
(THREE.BufferGeometry, library code not under src/), invoked by the Model
layout effect at Viewer3D.tsx line 20.  Positions stay exact rationals;
normals live in ℝ because unit-length normalization divides by a square
root. -/

def toR (v : V3 ℚ) : V3 ℝ := ⟨(v.x : ℝ), (v.y : ℝ), (v.z : ℝ)⟩

def cross (u v : V3 ℚ) : V3 ℚ :=
  ⟨u.y * v.z - u.z * v.y, u.z * v.x - u.x * v.z, u.x * v.y - u.y * v.x⟩

/-- Unnormalized facet normal of a triangle, (b − a) × (c − a); zero exactly
for a degenerate (zero-area) triangle. -/
def faceNormal (t : Tri) : V3 ℚ := cross (vsub t.b t.a) (vsub t.c t.a)

/-- Triangles of the mesh incident to the vertex position p. -/
def incidentTris (ts : List Tri) (p : V3 ℚ) : List Tri :=
  ts.filter (fun t => decide (t.a = p ∨ t.b = p ∨ t.c = p))

/-- Incident triangles that are not degenerate (nonzero facet normal). -/
def nondegIncident (ts : List Tri) (p : V3 ℚ) : List Tri :=
  (incidentTris ts p).filter (fun t => decide (¬ faceNormal t = vzero))

def norm2 (v : V3 ℝ) : ℝ := v.x ^ 2 + v.y ^ 2 + v.z ^ 2

noncomputable def unitize (v : V3 ℝ) : V3 ℝ := vsmul (Real.sqrt (norm2 v))⁻¹ v

def vsumR : List (V3 ℝ) → V3 ℝ
  | [] => vzero
  | v :: rest => vadd v (vsumR rest)

/-- Uniform (equal-weight) average of the unit facet normals of the
nondegenerate triangles incident to p. -/
noncomputable def avgNormal (ts : List Tri) (p : V3 ℚ) : V3 ℝ :=
  vsmul (((nondegIncident ts p).length : ℝ))⁻¹
    (vsumR ((nondegIncident ts p).map (fun t => unitize (toR (faceNormal t)))))

open Classical in
/-- Modelled from the spec: the per-vertex shading normal computed inside
computeVertexNormals (library code not under src/), per spec §4.2 — the
equal-weight average of the facet normals of every triangle incident to the
vertex, renormalized to unit length, with a fixed fallback unit vector when
the vertex has only degenerate adjacent faces (or the average cancels to
zero). -/
noncomputable def vertexNormal (ts : List Tri) (p : V3 ℚ) : V3 ℝ :=
  if avgNormal ts p = vzero then ⟨0, 0, 1⟩ else unitize (avgNormal ts p)

/-- A decoded mesh: a triangle list plus the per-vertex normals the decoder
supplied, when it supplied usable ones. -/
structure DecodedMesh where
  tris : List Tri
  suppliedNormals : Option (List (V3 ℝ))

/-- Modelled from the spec: the normalizer computes per-vertex shading
normals only when the decoder did not supply usable ones (spec §4.2); the
computation itself lives in computeVertexNormals, not under src/. -/
noncomputable def shadingNormals (m : DecodedMesh) : List (V3 ℝ) :=
  match m.suppliedNormals with
  | some ns => ns
  | none => (vertsOf m.tris).map (fun p => vertexNormal m.tris p)

/- ───────────────────────── THEOREMS ───────────────────────── -/

theorem setUrls_error (s : ViewerState) (us : List String) :
    (setUrls s us).error = s.error := by
  induction us generalizing s with
  | nil => rfl
  | cons u rest ih =>
      simpa [setUrls, viewerStep] using ih ⟨u, s.error⟩

/-- Claim C2 is false as stated on the code: starting from a non-errored
session for url "a", an error is caught (setting the error flag, line 77) and
then the url prop changes to "b"; the session still has its error flag set and
still renders the error placeholder — the url change did not produce a fresh
non-errored session, because Viewer3D never resets `error` on a url change and
no key forces a remount. -/
theorem c2_counterexample :
    (viewerStep (viewerStep ⟨"a", false⟩ .errorCaught) (.setUrl "b")).error = true ∧
    viewerRender (viewerStep (viewerStep ⟨"a", false⟩ .errorCaught) (.setUrl "b")) = .errorView ∧
    viewerRender (viewerStep (viewerStep ⟨"a", false⟩ .errorCaught) (.setUrl "b")) ≠ .canvas "b" := by
  refine ⟨rfl, by decide, by decide⟩

/-- Claim C2 (amended): after the session enters the Error state it renders
only the inert error placeholder (no model content), and changing the URL prop
— any number of times, to any urls — does not destroy or reset the errored
session: the error flag persists and every nonempty url still renders the
error placeholder.  A fresh load requires unmounting and remounting the
viewer, not merely a URL change. -/
theorem c2_error_persists (s : ViewerState) (us : List String) (h : s.error = true) :
    (setUrls s us).error = true ∧
    ((setUrls s us).url ≠ "" → viewerRender (setUrls s us) = .errorView) := by
  refine ⟨(setUrls_error s us).trans h, ?_⟩
  intro hu
  unfold viewerRender
  rw [if_neg hu, if_pos ((setUrls_error s us).trans h)]

theorem c2_witness :
    viewerRender (setUrls ⟨"a", true⟩ ["b"]) = .errorView :=
  (c2_error_persists ⟨"a", true⟩ ["b"] rfl).2 (by decide)

/-- Claim C10: with an empty/absent url the component renders the neutral
"No model selected" placeholder (Viewer3D.tsx line 65) regardless of the error
flag, and the Model subtree — the only code path that starts a fetch/decode or
can invoke onLoaded/onError — is not mounted. -/
theorem c10_empty_url :
    viewerRender ⟨"", false⟩ = .noModel ∧ viewerRender ⟨"", true⟩ = .noModel ∧
    mountsModel ⟨"", false⟩ = false ∧ mountsModel ⟨"", true⟩ = false := by
  decide

theorem ebRun_errored (k : Nat) (fs : List Bool) : ebRun ⟨true, k⟩ fs = ⟨true, k⟩ := by
  induction fs with
  | nil => rfl
  | cons f rest ih => simpa [ebRun, ebStep] using ih

theorem ebRun_calls_le (fs : List Bool) :
    ∀ s : EBState, (ebRun s fs).onErrorCalls ≤ s.onErrorCalls + 1 := by
  induction fs with
  | nil => intro s; exact Nat.le_succ _
  | cons f rest ih =>
      intro s
      by_cases hs : s.hasError
      · have h1 : ebStep s f = s := by simp [ebStep, hs]
        simpa [ebRun, h1] using ih s
      · by_cases hf : f
        · have h1 : ebStep s f = ⟨true, s.onErrorCalls + 1⟩ := by simp [ebStep, hs, hf]
          have h2 := ebRun_errored (s.onErrorCalls + 1) rest
          simp [ebRun, h1]
          simpa [ebRun] using Nat.le_of_eq (congrArg EBState.onErrorCalls h2)
        · have h1 : ebStep s f = s := by simp [ebStep, hs, hf]
          simpa [ebRun, h1] using ih s

/-- Claim C4: starting from a fresh boundary, if rendering the child subtree
throws on every one of n ≥ 1 frames (the fault recurs every frame), the
boundary ends with its error flag set and the caller-supplied onError invoked
exactly once; moreover over any frame/fault sequence whatsoever onError is
invoked at most once — once `hasError` is set the boundary renders null
(Viewer3D.tsx line 122), so the faulty child never renders or throws again. -/
theorem c4_error_once (n : Nat) (faults : List Bool) (h : 1 ≤ n) :
    (ebRun ⟨false, 0⟩ (List.replicate n true)).hasError = true ∧
    (ebRun ⟨false, 0⟩ (List.replicate n true)).onErrorCalls = 1 ∧
    (ebRun ⟨false, 0⟩ faults).onErrorCalls ≤ 1 := by
  obtain ⟨m, rfl⟩ : ∃ m, n = m + 1 := ⟨n - 1, (Nat.succ_pred_eq_of_pos h).symm⟩
  have h1 : ebRun ⟨false, 0⟩ (List.replicate (m + 1) true) = ⟨true, 1⟩ := by
    rw [List.replicate_succ]
    have hstep : ebStep ⟨false, 0⟩ true = ⟨true, 1⟩ := by simp [ebStep]
    calc ebRun ⟨false, 0⟩ (true :: List.replicate m true)
        = ebRun ⟨true, 1⟩ (List.replicate m true) := by simp [ebRun, hstep]
      _ = ⟨true, 1⟩ := ebRun_errored 1 _
  refine ⟨by rw [h1], by rw [h1], ?_⟩
  simpa using ebRun_calls_le faults ⟨false, 0⟩

theorem c4_witness :
    (ebRun ⟨false, 0⟩ (List.replicate 3 true)).hasError = true ∧
    (ebRun ⟨false, 0⟩ (List.replicate 3 true)).onErrorCalls = 1 ∧
    (ebRun ⟨false, 0⟩ [true, false, true]).onErrorCalls ≤ 1 :=
  c4_error_once 3 [true, false, true] (by decide)

/-- Claim C3 is false as stated on the code: two renders with the same loaded
geometry (identity 5) but a changed `onLoaded` prop identity (0 then 1) — e.g.
a caller passing a fresh arrow function on a re-render — run the layout effect
twice, because `onLoaded` is in the dependency array (Viewer3D.tsx line 30),
so onLoaded is invoked twice for one successful load, not exactly once. -/
theorem c3_counterexample :
    onLoadedCount [⟨5, 0⟩, ⟨5, 1⟩] = 2 ∧ onLoadedCount [⟨5, 0⟩, ⟨5, 1⟩] ≠ 1 := by
  decide

theorem onLoadedCalls_stable (g c : Nat) :
    ∀ ps : List RenderPass, (∀ p ∈ ps, p = ⟨g, c⟩) →
      onLoadedCalls (some (g, c)) ps = 0 := by
  intro ps
  induction ps with
  | nil => intro _; rfl
  | cons p rest ih =>
      intro h
      have hp : p = ⟨g, c⟩ := h p (by simp)
      subst hp
      have h0 := ih (fun q hq => h q (by simp [hq]))
      simp [onLoadedCalls, h0]

/-- Claim C3 (amended): onLoaded is invoked exactly once per successful load
provided the caller keeps the `onLoaded` prop referentially stable while the
same geometry stays loaded (every render pass carries the same geometry and
callback identity); if the callback identity changes between re-renders the
layout effect re-runs and invokes it again. -/
theorem c3_stable_once (g c : Nat) (ps : List RenderPass) (hne : ps ≠ [])
    (hall : ∀ p ∈ ps, p = ⟨g, c⟩) : onLoadedCount ps = 1 := by
  match ps, hne with
  | p :: rest, _ =>
    have hp : p = ⟨g, c⟩ := hall p (by simp)
    subst hp
    have h0 := onLoadedCalls_stable g c rest (fun q hq => hall q (by simp [hq]))
    simp [onLoadedCount, onLoadedCalls, h0]

theorem c3_witness : onLoadedCount [⟨5, 0⟩, ⟨5, 0⟩] = 1 :=
  c3_stable_once 5 0 [⟨5, 0⟩, ⟨5, 0⟩] (by decide) (by decide)

theorem runFiles_queue :
    ∀ (files : List FileEnv) (st : UploadState),
      (runFiles st files).queue = st.queue - files.length := by
  intro files
  induction files with
  | nil => intro st; simp [runFiles]
  | cons f rest ih =>
      intro st
      have h1 : runFiles st (f :: rest) = runFiles (uploadStep st f) rest := by
        simp [runFiles]
      rw [h1, ih]
      simp [uploadStep]
      omega

/-- Claim C8: a thumbnail-generation failure for an .stl file neither blocks
nor fails that file's upload — the file is uploaded with no thumbnail attached
and processing continues with the remaining files exactly as if nothing had
happened; and the upload flow runs to completion over the whole batch: the
queue counter returns to its initial value (every file, failed thumbnail or
not, is processed exactly once). -/
theorem c8_thumb_failure_isolated (ms : List UploadEntry) (q : Int)
    (f : FileEnv) (rest : List FileEnv)
    (hstl : f.isStl = true) (ht : f.thumbOk = false) (hu : f.uploadOk = true) :
    runFiles ⟨ms, q⟩ (f :: rest) = runFiles ⟨⟨f.name, none⟩ :: ms, q - 1⟩ rest ∧
    (handleUpload ms q (f :: rest)).queue = q := by
  constructor
  · have h1 : runFiles ⟨ms, q⟩ (f :: rest) = runFiles (uploadStep ⟨ms, q⟩ f) rest := by
      simp [runFiles]
    rw [h1]
    congr 1
    simp [uploadStep, hstl, ht, hu]
  · unfold handleUpload
    rw [runFiles_queue]
    simp

theorem c8_witness :
    runFiles ⟨[], 0⟩ [⟨"a.stl", true, false, true⟩, ⟨"b.stl", true, true, true⟩] =
      runFiles ⟨[⟨"a.stl", none⟩], 0 - 1⟩ [⟨"b.stl", true, true, true⟩] ∧
    (handleUpload [] 0 [⟨"a.stl", true, false, true⟩, ⟨"b.stl", true, true, true⟩]).queue = 0 :=
  c8_thumb_failure_isolated [] 0 ⟨"a.stl", true, false, true⟩ [⟨"b.stl", true, true, true⟩]
    rfl rfl rfl

theorem u32_roundtrip (n : Nat) (h : n < 4294967296) :
    u32le (n % 256) (n / 256 % 256) (n / 65536 % 256) (n / 16777216 % 256) = n := by
  unfold u32le
  omega

theorem concatL_length (recs : List (List Nat)) (h : ∀ r ∈ recs, r.length = 50) :
    (concatL recs).length = 50 * recs.length := by
  induction recs with
  | nil => rfl
  | cons r rs ih =>
      have hr : r.length = 50 := h r (by simp)
      have h0 := ih (fun q hq => h q (by simp [hq]))
      simp [concatL, hr, h0]
      ring

theorem readRecords_concatL (recs : List (List Nat)) (h : ∀ r ∈ recs, r.length = 50) :
    readRecords recs.length (concatL recs) = recs := by
  induction recs with
  | nil => rfl
  | cons r rs ih =>
      have hr : r.length = 50 := h r (by simp)
      have h1 : (r ++ concatL rs).take 50 = r := by
        rw [← hr]
        exact List.take_left r (concatL rs)
      have h2 : (r ++ concatL rs).drop 50 = concatL rs := by
        rw [← hr]
        exact List.drop_left r (concatL rs)
      have h0 := ih (fun q hq => h q (by simp [hq]))
      simp [concatL, readRecords, h1, h2, h0]

theorem drop80_append (hdr l : List Nat) (hh : hdr.length = 80) :
    (hdr ++ l).drop 80 = l := by
  rw [← hh]
  exact List.drop_left hdr l

/-- Claim C6: for every well-formed binary mesh buffer — an 80-byte header, a
little-endian declared count N with 1 ≤ N < 2^32, and exactly N 50-byte
records — decode returns exactly those N records in file order; the empty
buffer, any buffer declaring N = 0, and any buffer whose payload is shorter
than its declared count all fail with MalformedMeshError, the error carrying
no partial data. -/
theorem c6_decode :
    (∀ (hdr : List Nat) (recs : List (List Nat)), hdr.length = 80 →
        (∀ r ∈ recs, r.length = 50) → 1 ≤ recs.length → recs.length < 4294967296 →
        decode (hdr ++ (u32bytes recs.length ++ concatL recs)) = .ok recs) ∧
    decode [] = .error .malformedMesh ∧
    (∀ (hdr junk : List Nat), hdr.length = 80 →
        decode (hdr ++ (u32bytes 0 ++ junk)) = .error .malformedMesh) ∧
    (∀ (hdr junk : List Nat) (n : Nat), hdr.length = 80 → n < 4294967296 →
        junk.length < 50 * n →
        decode (hdr ++ (u32bytes n ++ junk)) = .error .malformedMesh) := by
  refine ⟨?_, rfl, ?_, ?_⟩
  · intro hdr recs hh hr h1 h2
    unfold decode
    rw [drop80_append _ _ hh]
    show decodeBody (recs.length % 256 :: recs.length / 256 % 256 ::
      recs.length / 65536 % 256 :: recs.length / 16777216 % 256 :: concatL recs) = .ok recs
    simp only [decodeBody]
    rw [u32_roundtrip recs.length h2]
    rw [if_neg (by omega)]
    rw [if_pos (concatL_length recs hr)]
    rw [readRecords_concatL recs hr]
  · intro hdr junk hh
    unfold decode
    rw [drop80_append _ _ hh]
    show decodeBody (0 % 256 :: 0 / 256 % 256 :: 0 / 65536 % 256 :: 0 / 16777216 % 256 :: junk)
      = .error .malformedMesh
    simp only [decodeBody]
    norm_num [u32le]
  · intro hdr junk n hh h2 hlen
    unfold decode
    rw [drop80_append _ _ hh]
    show decodeBody (n % 256 :: n / 256 % 256 :: n / 65536 % 256 :: n / 16777216 % 256 :: junk)
      = .error .malformedMesh
    simp only [decodeBody]
    rw [u32_roundtrip n h2]
    rw [if_neg (by omega)]
    rw [if_neg (by omega)]

theorem c6_witness :
    decode (List.replicate 80 0 ++ (u32bytes 1 ++ concatL [List.replicate 50 7])) =
      .ok [List.replicate 50 7] ∧
    decode [] = .error .malformedMesh ∧
    decode (List.replicate 80 0 ++ (u32bytes 0 ++ [])) = .error .malformedMesh ∧
    decode (List.replicate 80 0 ++ (u32bytes 2 ++ List.replicate 60 0)) = .error .malformedMesh :=
  ⟨c6_decode.1 (List.replicate 80 0) [List.replicate 50 7] (by simp) (by simp)
      (by simp) (by simp),
    c6_decode.2.1,
    c6_decode.2.2.1 (List.replicate 80 0) [] (by simp),
    c6_decode.2.2.2 (List.replicate 80 0) (List.replicate 60 0) 2 (by simp) (by norm_num)
      (by simp)⟩

theorem vmin_sub (a b c : V3 ℚ) : vmin (vsub a c) (vsub b c) = vsub (vmin a b) c := by
  simp [vmin, vsub, V3.mk.injEq, min_sub_sub_right]

theorem vmax_sub (a b c : V3 ℚ) : vmax (vsub a c) (vsub b c) = vsub (vmax a b) c := by
  simp [vmax, vsub, V3.mk.injEq, max_sub_sub_right]

theorem foldl_vmin_sub (c : V3 ℚ) (l : List (V3 ℚ)) :
    ∀ a : V3 ℚ, (l.map (fun v => vsub v c)).foldl vmin (vsub a c) = vsub (l.foldl vmin a) c := by
  induction l with
  | nil => intro a; rfl
  | cons v rest ih =>
      intro a
      simp only [List.map_cons, List.foldl_cons, vmin_sub]
      exact ih (vmin a v)

theorem foldl_vmax_sub (c : V3 ℚ) (l : List (V3 ℚ)) :
    ∀ a : V3 ℚ, (l.map (fun v => vsub v c)).foldl vmax (vsub a c) = vsub (l.foldl vmax a) c := by
  induction l with
  | nil => intro a; rfl
  | cons v rest ih =>
      intro a
      simp only [List.map_cons, List.foldl_cons, vmax_sub]
      exact ih (vmax a v)

theorem bboxMin_center (vs : List (V3 ℚ)) :
    bboxMin (centerGeom vs) = vsub (bboxMin vs) (bboxCenter vs) := by
  cases vs with
  | nil =>
      simp [centerGeom, bboxMin, bboxMax, bboxCenter, vadd, vsub, vsmul, vzero]
  | cons v rest =>
      simp only [centerGeom, List.map_cons, bboxMin]
      exact foldl_vmin_sub (bboxCenter (v :: rest)) rest v

theorem bboxMax_center (vs : List (V3 ℚ)) :
    bboxMax (centerGeom vs) = vsub (bboxMax vs) (bboxCenter vs) := by
  cases vs with
  | nil =>
      simp [centerGeom, bboxMin, bboxMax, bboxCenter, vadd, vsub, vsmul, vzero]
  | cons v rest =>
      simp only [centerGeom, List.map_cons, bboxMax]
      exact foldl_vmax_sub (bboxCenter (v :: rest)) rest v

theorem bboxCenter_center (vs : List (V3 ℚ)) : bboxCenter (centerGeom vs) = vzero := by
  have hmin := bboxMin_center vs
  have hmax := bboxMax_center vs
  unfold bboxCenter at hmin hmax ⊢
  rw [hmin, hmax]
  simp only [vadd, vsub, vsmul, vzero, V3.mk.injEq]
  refine ⟨by ring, by ring, by ring⟩

theorem vsub_vzero (v : V3 ℚ) : vsub v vzero = v := by
  cases v
  simp [vsub, vzero]

theorem centerGeom_of_centered (vs : List (V3 ℚ)) (h : bboxCenter vs = vzero) :
    centerGeom vs = vs := by
  unfold centerGeom
  rw [h]
  simp [vsub_vzero]

/-- Claim C9: the centering step is idempotent — centering a mesh whose
bounding-box center already sits at the origin translates by (0,0,0), leaving
every vertex position unchanged, and consequently centering twice equals
centering once (no drift on repeated normalization). -/
theorem c9_center_idempotent (vs : List (V3 ℚ)) :
    (bboxCenter vs = vzero → centerGeom vs = vs) ∧
    centerGeom (centerGeom vs) = centerGeom vs :=
  ⟨centerGeom_of_centered vs, centerGeom_of_centered _ (bboxCenter_center vs)⟩

theorem c9_witness :
    centerGeom [(⟨-1, 0, 0⟩ : V3 ℚ), ⟨1, 0, 0⟩] = [⟨-1, 0, 0⟩, ⟨1, 0, 0⟩] :=
  (c9_center_idempotent _).1 (by
    simp [bboxCenter, bboxMin, bboxMax, vmin, vmax, vadd, vsmul, vzero, V3.mk.injEq,
      min_def, max_def])

/-- Claim C1: every successful normalization yields a geometry whose
bounding-box center is exactly the origin; the vertices handed on are the
input vertices translated by the negative of their bounding-box center; and
the size reported to the caller via onLoaded is computed from the already
centered geometry — centering happens before the bounding-box size is
computed and reported (Viewer3D.tsx lines 21-27 order). -/
theorem c1_centering (ts : List Tri) (g : NormGeom) (h : normalizeMesh ts = .ok g) :
    bboxCenter g.verts = vzero ∧
    g.verts = centerGeom (vertsOf ts) ∧
    g.size = bboxSize g.verts ∧
    reportedSize ts = some (bboxSize g.verts) := by
  cases ts with
  | nil => exact absurd h (by simp [normalizeMesh])
  | cons t rest =>
      have hg : (⟨centerGeom (vertsOf (t :: rest)),
          bboxSize (centerGeom (vertsOf (t :: rest)))⟩ : NormGeom) = g := by
        simpa [normalizeMesh] using h
      subst hg
      refine ⟨bboxCenter_center _, rfl, rfl, ?_⟩
      simp [reportedSize, normalizeMesh]

theorem normalizeT0 : normalizeMesh [T0] = .ok G0 := by
  norm_num [normalizeMesh, vertsOf, T0, G0, centerGeom, bboxCenter, bboxMin, bboxMax,
    bboxSize, vmin, vmax, vadd, vsub, vsmul, vzero, min_def, max_def, V3.mk.injEq]

theorem c1_witness :
    normalizeMesh [T0] = .ok G0 ∧
    (bboxCenter G0.verts = vzero ∧
      G0.verts = centerGeom (vertsOf [T0]) ∧
      G0.size = bboxSize G0.verts ∧
      reportedSize [T0] = some (bboxSize G0.verts)) :=
  ⟨normalizeT0, c1_centering [T0] G0 normalizeT0⟩

/-- Claim C7: a decoded mesh with zero triangles fails normalization with
EmptyMeshError rather than producing a geometry, and the caller renders no
geometry for it. -/
theorem c7_empty_mesh :
    normalizeMesh [] = .error .emptyMesh ∧ renderedGeom [] = none :=
  ⟨rfl, rfl⟩

theorem norm2_nonneg (v : V3 ℝ) : 0 ≤ norm2 v := by
  unfold norm2
  positivity

theorem norm2_eq_zero_iff (v : V3 ℝ) : norm2 v = 0 ↔ v = vzero := by
  constructor
  · intro h
    simp only [norm2] at h
    have hx : v.x ^ 2 = 0 := by
      nlinarith [sq_nonneg v.x, sq_nonneg v.y, sq_nonneg v.z, h]
    have hy : v.y ^ 2 = 0 := by
      nlinarith [sq_nonneg v.x, sq_nonneg v.y, sq_nonneg v.z, h]
    have hz : v.z ^ 2 = 0 := by
      nlinarith [sq_nonneg v.x, sq_nonneg v.y, sq_nonneg v.z, h]
    cases v
    simp_all [vzero, sq_eq_zero_iff]
  · intro h
    rw [h]
    simp [norm2, vzero]

theorem norm2_vsmul (a : ℝ) (v : V3 ℝ) : norm2 (vsmul a v) = a ^ 2 * norm2 v := by
  simp only [norm2, vsmul]
  ring

theorem norm2_unitize (v : V3 ℝ) (hv : v ≠ vzero) : norm2 (unitize v) = 1 := by
  have h0 : norm2 v ≠ 0 := fun h => hv ((norm2_eq_zero_iff v).1 h)
  unfold unitize
  rw [norm2_vsmul, inv_pow, Real.sq_sqrt (norm2_nonneg v), inv_mul_cancel₀ h0]

/-- Claim C5: shading normals are computed only when the decoder supplied no
usable per-vertex normals — supplied normals are kept verbatim; when computed,
the normal of a vertex is the renormalized equal-weight average of the unit
facet normals of its incident (nondegenerate) triangles, and whenever that
average is nonzero the resulting normal has unit length (squared norm exactly
1). -/
theorem c5_shading_normals :
    (∀ (ts : List Tri) (ns : List (V3 ℝ)), shadingNormals ⟨ts, some ns⟩ = ns) ∧
    (∀ ts : List Tri,
        shadingNormals ⟨ts, none⟩ = (vertsOf ts).map (fun p => vertexNormal ts p)) ∧
    (∀ (ts : List Tri) (p : V3 ℚ), avgNormal ts p ≠ vzero →
        vertexNormal ts p = unitize (avgNormal ts p) ∧
        norm2 (vertexNormal ts p) = 1) := by
  refine ⟨fun ts ns => rfl, fun ts => rfl, fun ts p h => ?_⟩
  have he : vertexNormal ts p = unitize (avgNormal ts p) := by
    unfold vertexNormal
    rw [if_neg h]
  exact ⟨he, by rw [he]; exact norm2_unitize _ h⟩

theorem avgNormalT0 : avgNormal [T0] ⟨0, 0, 0⟩ = ⟨0, 0, 1⟩ := by
  have h2 : faceNormal T0 = ⟨0, 0, 1⟩ := by
    norm_num [faceNormal, cross, vsub, T0, V3.mk.injEq]
  have h2l : faceNormal ⟨⟨0, 0, 0⟩, ⟨1, 0, 0⟩, ⟨0, 1, 0⟩⟩ = ⟨0, 0, 1⟩ := by
    norm_num [faceNormal, cross, vsub, V3.mk.injEq]
  have h1 : nondegIncident [T0] ⟨0, 0, 0⟩ = [T0] := by
    norm_num [nondegIncident, incidentTris, List.filter_cons, T0, h2l, vzero, V3.mk.injEq]
  have h3 : toR (⟨0, 0, 1⟩ : V3 ℚ) = ⟨0, 0, 1⟩ := by
    simp [toR]
  have h4 : unitize (⟨0, 0, 1⟩ : V3 ℝ) = ⟨0, 0, 1⟩ := by
    unfold unitize
    norm_num [norm2, vsmul]
  unfold avgNormal
  rw [h1]
  simp only [List.map_cons, List.map_nil, h2, h3, h4, List.length_cons, List.length_nil]
  norm_num [vsumR, vadd, vsmul, vzero]

theorem c5_witness :
    vertexNormal [T0] ⟨0, 0, 0⟩ = unitize (avgNormal [T0] ⟨0, 0, 0⟩) ∧
    norm2 (vertexNormal [T0] ⟨0, 0, 0⟩) = 1 :=
  c5_shading_normals.2.2 [T0] ⟨0, 0, 0⟩ (by
    rw [avgNormalT0]
    simp [vzero, V3.mk.injEq])
